import Mathlib

/-!
Verification of the content risk scoring engine of the phishing-prevention
component (source: `src/unnamed/part_001`, `FraudPrevention` / `analyzeContent`).

Shallow embedding conventions:
* JavaScript strings are embedded as `List Char` (`Str`).  Where the source
  uses `String.prototype.length` / `slice` (UTF-16 code-unit semantics) we use
  `len16` / `take16`, which count supplementary-plane characters twice.
* JavaScript numbers are embedded as rationals (`ℚ`); every weight in the
  source is a short decimal literal, and the score is a sum of products of
  such literals, so ℚ mirrors the intended real arithmetic.
* JavaScript regular expressions are embedded as an explicit regex AST (`RE`)
  with an executable matcher.  `RegExp.prototype.test` (search anywhere) is
  `RE.search`; a `^`-anchored test is `RE.testAt`; the `i` flag is modelled by
  matching the lower-cased subject against a lower-case pattern.
* The host `URL` constructor is modelled by `parseURL` (see its doc comment).
-/

set_option maxRecDepth 4000

namespace Phish

abbrev Str := List Char

/-- ASCII (and Cyrillic, for the homograph character classes that carry the
`i` flag in the source) lower-casing, as performed by `toLowerCase` and by
case-insensitive regex matching on the inputs this development evaluates. -/
def lowerChar (c : Char) : Char :=
  if 'A' ≤ c ∧ c ≤ 'Z' then Char.ofNat (c.toNat + 32)
  else if 'А' ≤ c ∧ c ≤ 'Я' then Char.ofNat (c.toNat + 32)
  else c

def lower (s : Str) : Str := s.map lowerChar

/-- JS whitespace class used by `String.prototype.trim` (restricted to the
code points that can occur in this development). -/
def isWsChar (c : Char) : Bool :=
  c = ' ' ∨ c = '\t' ∨ c = '\n' ∨ c = '\r' ∨ c = '\x0b' ∨ c = '\x0c'

/-- `content.trim()` is falsy iff every character is whitespace. -/
def isBlank (s : Str) : Bool := s.all isWsChar

/-- UTF-16 length of a string (JS `String.prototype.length`). -/
def len16 (s : Str) : Nat := (s.map (fun c => if c.toNat ≥ 0x10000 then 2 else 1)).sum

/-- `String.prototype.slice(0, n)` in UTF-16 code units; on the BMP inputs of
this development it coincides with `List.take n`. -/
def take16 (n : Nat) (s : Str) : Str :=
  match s, n with
  | [], _ => []
  | _, 0 => []
  | c :: t, n + 1 =>
      if c.toNat ≥ 0x10000 then
        if n = 0 then [] else c :: take16 (n - 1) t
      else c :: take16 n t

/-- Regular-expression AST covering the constructs used by the source's
patterns: character literals, character classes (lists of inclusive ranges,
possibly negated), the `$` anchor (`eol`), alternation, concatenation and
Kleene star. -/
inductive RE where
  | emp : RE
  | eps : RE
  | chr : Char → RE
  | grp : Bool → List (Char × Char) → RE
  | eol : RE
  | alt : RE → RE → RE
  | cat : RE → RE → RE
  | star : RE → RE
deriving Repr

def inRanges (rs : List (Char × Char)) (c : Char) : Bool :=
  rs.any fun p => p.1 ≤ c ∧ c ≤ p.2

/-- Can `r` match the empty string here?  `atEnd` says whether the current
position is the end of the input, which is what the `$` anchor consults. -/
def RE.nullableAt (atEnd : Bool) : RE → Bool
  | .emp => false
  | .eps => true
  | .chr _ => false
  | .grp _ _ => false
  | .eol => atEnd
  | .alt a b => nullableAt atEnd a || nullableAt atEnd b
  | .cat a b => nullableAt atEnd a && nullableAt atEnd b
  | .star _ => true

/-- Smart alternation: drops the empty language, so that derivatives stay
small. -/
def altS : RE → RE → RE
  | .emp, b => b
  | a, .emp => a
  | a, b => .alt a b

/-- Smart concatenation: absorbs the empty language and drops `ε` factors. -/
def catS : RE → RE → RE
  | .emp, _ => .emp
  | _, .emp => .emp
  | .eps, b => b
  | a, .eps => a
  | a, b => .cat a b

/-- Brzozowski derivative of `r` by `c`.  A consumed character is never at
the end of the input, so `$` derives to (and is nullable-checked as) the
empty language. -/
def RE.deriv : RE → Char → RE
  | .emp, _ => .emp
  | .eps, _ => .emp
  | .chr c, d => if d = c then .eps else .emp
  | .grp neg rs, d => if inRanges rs d ≠ neg then .eps else .emp
  | .eol, _ => .emp
  | .alt a b, d => altS (a.deriv d) (b.deriv d)
  | .cat a b, d =>
      altS (catS (a.deriv d) b) (if a.nullableAt false then b.deriv d else .emp)
  | .star a, d => catS (a.deriv d) (.star a)

/-- Anchored test: does some prefix of `s` match `r`? -/
def RE.testAt : RE → Str → Bool
  | r, [] => r.nullableAt true
  | r, c :: t => r.nullableAt false || (r.deriv c).testAt t

/-- Unanchored test (JS `RegExp.prototype.test` without `^`): does any
substring of `s` match `r`? -/
def RE.search (r : RE) : Str → Bool
  | [] => r.testAt []
  | c :: t => r.testAt (c :: t) || r.search t

/-- `r` contains no `$` anchor; such patterns keep matching when text is
appended to the subject. -/
def RE.noEol : RE → Bool
  | .emp | .eps | .chr _ | .grp _ _ => true
  | .eol => false
  | .alt a b | .cat a b => a.noEol && b.noEol
  | .star a => a.noEol

/- Pattern-building helpers. -/

def lit (s : String) : RE := (s.toList.map RE.chr).foldr RE.cat RE.eps

def alts (l : List RE) : RE := l.foldr RE.alt RE.emp

/-- Character class from an explicit list of characters. -/
def cls (s : String) : RE := RE.grp false (s.toList.map fun c => (c, c))

def rng (lo hi : Char) : RE := RE.grp false [(lo, hi)]

/-- JS `.` (without the `s` flag): any character except line terminators. -/
def anyc : RE := RE.grp true [('\n', '\n'), ('\r', '\r')]

def dotStar : RE := RE.star anyc

/-- `a.*b` -/
def dsq (a b : RE) : RE := .cat a (.cat dotStar b)

def optR (r : RE) : RE := .alt .eps r

def reps (r : RE) : Nat → RE
  | 0 => .eps
  | n + 1 => .cat r (reps r n)

/-- `r{n,}` -/
def atLeast (r : RE) (n : Nat) : RE := .cat (reps r n) (.star r)

/-- `r{n,m}` -/
def between (r : RE) (n m : Nat) : RE := .cat (reps r n) (reps (optR r) (m - n))

def digit : RE := rng '0' '9'

/-- JS `\s` restricted to ASCII whitespace. -/
def wsc : RE := cls " \t\n\r\x0b\x0c"

/-- JS `\w` -/
def wordc : RE := RE.grp false [('a', 'z'), ('A', 'Z'), ('0', '9'), ('_', '_')]

/-- JS `\W` -/
def nonWordc : RE := RE.grp true [('a', 'z'), ('A', 'Z'), ('0', '9'), ('_', '_')]

/-! ## Rule registry (source lines 100–215, `fraudPatterns`) -/

/-- Content category (`type` in the source): url / email / sms. -/
inductive CType where
  | url
  | email
  | sms
deriving DecidableEq, Repr

/-- One entry of a category's rule table: `{ pattern, reason, weight }`. -/
structure FraudRule where
  test : Str → Bool
  reason : String
  weight : ℚ

/-- Rule whose pattern carries the `i` flag: the subject is lower-cased and
the pattern is written in lower case. -/
def ruleIC (re : RE) (reason : String) (weight : ℚ) : FraudRule :=
  ⟨fun s => re.search (lower s), reason, weight⟩

/-- Rule whose pattern has no `i` flag. -/
def ruleCS (re : RE) (reason : String) (weight : ℚ) : FraudRule :=
  ⟨fun s => re.search s, reason, weight⟩

def apos : Char := Char.ofNat 39

/-- `\bW\b` where every alternative of `W` starts and ends with a word
character: an occurrence of `W` at the start or after a non-word character,
followed by end-of-input or a non-word character.  The enclosing test only
asks for existence of a match, so consuming the neighbouring non-word
characters is equivalent to the zero-width JS assertion. -/
def wbTest (w : RE) (s : Str) : Bool :=
  (RE.cat w (RE.alt RE.eol nonWordc)).testAt s ||
    (RE.cat nonWordc (RE.cat w (RE.alt RE.eol nonWordc))).search s

/-- `/expires?/` etc. -/
def optS (s : String) : RE := .cat (lit s) (optR (.chr 's'))

/-- `[0-9]{1,3}` -/
def d13 : RE := between digit 1 3

/-- `(tk|ml|ga|cf)` -/
def freeTld : RE := alts [lit "tk", lit "ml", lit "ga", lit "cf"]

/-- Greek letters of the source's homograph class (`ς` is absent). -/
def greekCls : RE := RE.grp false [('α', 'ρ'), ('σ', 'ω')]

def urlRules : List FraudRule := [
  ruleIC (alts [lit "bit.ly", lit "tinyurl", lit "t.co", lit "goo.gl", lit "short.link",
    lit "is.gd", lit "ow.ly", lit "buff.ly"]) "Shortened URL detected" (7/10),
  ruleIC (alts [lit "urgent", lit "verify", lit "suspended", optS "expire", lit "immediate",
    lit "asap", lit "now", lit "today", dsq (lit "24") (optS "hour")])
    "Creates false urgency" (8/10),
  ruleIC (alts [lit "winner", lit "congratulations", lit "lottery", lit "prize",
    lit "selected", lit "won", lit "claim", lit "reward"])
    "Prize/lottery scam indicators" (9/10),
  ruleIC (alts [lit "login", lit "signin", lit "account", lit "bank", lit "paypal",
    lit "amazon", lit "apple", lit "microsoft", lit "google", lit "verify", lit "update",
    lit "confirm"]) "Credential harvesting attempt" (6/10),
  ruleCS (.cat d13 (.cat (.chr '.') (.cat d13 (.cat (.chr '.')
    (.cat d13 (.cat (.chr '.') d13)))))) "IP address instead of domain" (95/100),
  ruleIC (alts [
    .cat (lit "secure-") (.cat dotStar (.cat (.chr '.') freeTld)),
    .cat dotStar (.cat (lit "-secure.") freeTld),
    .cat (lit "verify") (.cat dotStar (.cat (.chr '.') freeTld))])
    "Suspicious domain pattern with free TLD" (9/10),
  ruleIC (alts [
    .cat (lit "payp") (.cat (cls "a4") (.chr 'l')),
    .cat (.chr 'g') (.cat (cls "o0") (.cat (cls "o0") (lit "gle"))),
    .cat (lit "micr") (.cat (cls "o0") (.cat (.chr 's') (.cat (cls "o0") (lit "ft")))),
    .cat (cls "a4") (.cat (.chr 'm') (.cat (cls "a4") (.cat (.chr 'z')
      (.cat (cls "o0") (.chr 'n'))))),
    .cat (cls "a4") (lit "pple"),
    .cat (.chr 'f') (.cat (cls "a4") (.cat (lit "ceb") (.cat (cls "o0")
      (.cat (cls "o0") (.chr 'k'))))),
    .cat (lit "tw") (.cat (cls "i1") (lit "tter")),
    .cat (lit "netfl") (.cat (cls "i1") (.chr 'x'))])
    "Possible brand impersonation/typosquatting" (85/100),
  ruleIC (.cat (cls "?&") (.cat (alts [lit "account", lit "login", lit "verify",
    lit "update", lit "confirm", lit "suspend", lit "lock", lit "expire", lit "urgent"])
    (.chr '='))) "Suspicious URL parameters" (7/10),
  ruleIC (alts [lit "xn--", rng 'а' 'я', greekCls, cls "аеорсукх"])
    "Possible homograph/character substitution attack" (95/100),
  ruleIC (.cat (.cat (.chr '.') (alts [lit "exe", lit "bat", lit "scr", lit "cmd",
    lit "pif", lit "com", lit "jar", lit "zip", lit "rar", lit "dmg", lit "apk",
    lit "deb", lit "rpm"])) (.alt (cls "?#") .eol))
    "Suspicious executable file type" (8/10)]

def misspellWords : RE := alts [lit "recieve", lit "occured", lit "seperate",
  lit "definately", lit "alot", lit "loose", lit "there", lit "their", lit "your",
  .cat (lit "you") (.cat (.chr apos) (lit "re"))]

def emailRules : List FraudRule := [
  ruleIC (alts [lit "urgent", lit "immediate", optS "expire", lit "suspend", lit "asap",
    dsq (lit "act") (lit "now"), dsq (lit "respond") (lit "within"),
    dsq (lit "final") (lit "notice"), dsq (lit "last") (lit "chance")])
    "Creates false urgency" (8/10),
  ruleIC (alts [dsq (lit "click") (lit "here"), dsq (lit "download") (lit "now"),
    dsq (lit "verify") (lit "now"), dsq (lit "update") (lit "now"),
    dsq (lit "confirm") (lit "now"), dsq (lit "access") (lit "now")])
    "Generic call-to-action" (7/10),
  ruleIC (alts [lit "congratulations", lit "winner", lit "selected", lit "lottery",
    lit "prize", lit "won", lit "claim", lit "reward", lit "contest", lit "drawing"])
    "Prize/lottery scam indicators" (95/100),
  ruleIC (alts [lit "prince", lit "inheritance", lit "million", lit "billion",
    optS "dollar", lit "deceased", lit "beneficiary", lit "estate", lit "diplomat",
    lit "barrister", lit "solicitor"])
    "Advance fee fraud (419 scam) indicators" (95/100),
  ruleIC (alts [lit "suspended", lit "terminated", lit "blocked", lit "locked",
    lit "deactivated", lit "compromised", lit "hacked", lit "unauthorized"])
    "Account threat tactics" (85/100),
  ruleIC (alts [dsq (lit "tax") (lit "refund"), lit "irs", lit "fbi",
    dsq (lit "homeland") (lit "security"), lit "customs", lit "immigration",
    dsq (lit "social") (lit "security"), lit "medicare", lit "stimulus"])
    "Government authority impersonation" (9/10),
  ruleIC (.cat (lit "dear") (.cat (atLeast wsc 1) (alts [lit "sir", lit "madam",
    lit "friend", lit "customer", lit "valued", lit "esteemed", lit "recipient"])))
    "Generic greeting typical of mass scams" (6/10),
  ruleIC (alts [lit "beneficiary", dsq (lit "transfer") (lit "funds"),
    dsq (lit "claim") (lit "money"), dsq (lit "wire") (lit "transfer"),
    dsq (lit "bank") (lit "details"), dsq (lit "routing") (lit "number"),
    dsq (lit "account") (lit "number")]) "Financial fraud language" (85/100),
  ruleIC (alts [dsq (lit "contact") (lit "immediately"), dsq (lit "respond") (lit "within"),
    dsq (lit "act") (lit "now"), dsq (lit "time") (lit "sensitive"),
    dsq (lit "expire") (lit "soon"), dsq (lit "final") (lit "warning")])
    "High-pressure tactics" (8/10),
  ruleIC (alts [dsq (lit "western") (lit "union"), dsq (lit "money") (lit "gram"),
    lit "bitcoin", lit "cryptocurrency", dsq (lit "gift") (lit "card"),
    dsq (lit "itunes") (lit "card"), dsq (lit "steam") (lit "card"),
    dsq (lit "prepaid") (lit "card")]) "Suspicious payment methods" (9/10),
  ruleIC (alts [lit "confidential", lit "secret", dsq (lit "private") (lit "matter"),
    lit "classified", lit "discreet", dsq (lit "between") (lit "us"),
    dsq (lit "do") (dsq (lit "not") (lit "tell"))])
    "Secrecy tactics to avoid scrutiny" (7/10),
  ⟨fun s => wbTest misspellWords (lower s),
    "Common spelling errors in scam emails", 4/10⟩,
  ruleIC (alts [lit "noreply", lit "no-reply", lit "donotreply", lit "notification",
    lit "alert", lit "security", lit "admin",
    .cat (lit "support") (.cat dotStar (.cat (.chr '@') (alts [lit "gmail", lit "yahoo",
      lit "hotmail", lit "outlook"])))])
    "Suspicious sender using free email service" (6/10),
  ruleIC (alts [lit "love", lit "romance", lit "relationship", lit "dating", lit "meet",
    lit "attractive", lit "photos", lit "lonely", lit "widow", lit "military",
    lit "overseas"]) "Romance scam indicators" (7/10),
  ruleIC (alts [dsq (lit "computer") (lit "infected"), dsq (lit "virus") (lit "detected"),
    lit "malware", dsq (lit "windows") (lit "license"),
    dsq (lit "microsoft") (lit "support"), dsq (lit "apple") (lit "support")])
    "Tech support scam indicators" (8/10)]

def smsRules : List FraudRule := [
  ruleIC (alts [lit "congratulations", lit "winner", lit "selected", lit "won",
    lit "prize", lit "reward", lit "contest", lit "drawing", lit "lottery"])
    "Prize scam indicators" (95/100),
  ruleIC (alts [lit "click", lit "link", lit "http", lit "bit.ly", lit "tinyurl",
    lit "download", lit "install", lit "app"]) "Suspicious link request" (8/10),
  ruleIC (alts [lit "urgent", lit "expire", lit "suspend", lit "immediate", lit "asap",
    lit "now", lit "today", dsq (lit "24") (optS "hour"), lit "final"])
    "Creates false urgency" (8/10),
  ruleIC (alts [lit "free", lit "offer", lit "deal", lit "discount", lit "save",
    lit "50%", lit "75%", lit "90%", lit "cash", lit "money", lit "gift"])
    "Too-good-to-be-true offers" (6/10),
  ruleIC (alts [lit "verify", lit "confirm", lit "update", lit "validate",
    lit "authenticate", lit "secure", lit "login", lit "password"])
    "Information harvesting attempt" (7/10),
  ruleIC (alts [lit "subscription", lit "premium", lit "charged", lit "billing",
    lit "cancel", lit "unsubscribe", dsq (lit "stop") (lit "reply")])
    "Subscription scam pattern" (7/10),
  ruleIC (alts [lit "bank", lit "card", lit "account", lit "payment", lit "transaction",
    lit "fraud", dsq (lit "security") (lit "alert"), lit "suspended"])
    "Financial institution impersonation" (8/10),
  ruleIC (alts [lit "package", lit "delivery", lit "shipment", lit "fedex", lit "ups",
    lit "dhl", lit "postal", lit "redelivery", dsq (lit "failed") (lit "delivery")])
    "Package delivery scam" (7/10),
  ruleIC (alts [lit "tax", lit "irs", lit "refund", lit "stimulus", lit "government",
    dsq (lit "social") (lit "security"), lit "medicare", lit "benefits"])
    "Government impersonation" (9/10),
  ruleIC (alts [lit "virus", lit "malware", lit "infected",
    dsq (lit "security") (lit "breach"), lit "microsoft", lit "apple", lit "google",
    dsq (lit "tech") (lit "support")]) "Tech support scam" (8/10),
  ruleIC (alts [lit "dating", lit "lonely", lit "photos", lit "meet", lit "relationship",
    lit "love", lit "attractive", lit "military", lit "overseas"])
    "Romance/social engineering scam" (7/10),
  ruleIC (alts [lit "bitcoin", lit "crypto", lit "investment", lit "trading",
    lit "profit", lit "roi", dsq (lit "guaranteed") (lit "returns"),
    dsq (lit "make") (lit "money")]) "Cryptocurrency/investment scam" (8/10)]

def fraudPatterns : CType → List FraudRule
  | .url => urlRules
  | .email => emailRules
  | .sms => smsRules

/-! ## Safe-content indicators (source lines 226–242, `safeIndicators`)

Each test is applied to `content.toLowerCase()` (the source also sets the `i`
flag, which is redundant on a lower-cased subject). -/

def hostCls : RE := RE.grp false [('a', 'z'), ('0', '9'), ('-', '-')]

def pathCls : RE := RE.grp false [('a', 'z'), ('0', '9'), ('-', '-'), ('/', '/')]

def urlSafe : List (Str → Bool) := [
  fun l => (RE.cat (lit "https://") (.cat (optR (lit "www.")) (.cat (alts [lit "google",
    lit "microsoft", lit "apple", lit "amazon", lit "github", lit "stackoverflow",
    lit "wikipedia", lit "mozilla", lit "linkedin", lit "youtube", lit "twitter",
    lit "facebook", lit "instagram"]) (lit ".com")))).testAt l,
  fun l => (RE.cat (lit "https://") (.cat (atLeast hostCls 1) (.cat (.chr '.')
    (.cat (alts [lit "edu", lit "gov", lit "org"]) (.alt .eol (.chr '/')))))).testAt l,
  fun l => (RE.cat (lit "https://") (.cat (atLeast hostCls 1) (.cat (.chr '.')
    (.cat (alts [lit "com", lit "net", lit "org"]) (.cat (.chr '/')
    (.cat (.star pathCls) (.cat (.chr '.') (.cat (alts [lit "pdf", lit "doc", lit "docx",
      lit "jpg", lit "jpeg", lit "png", lit "gif"]) .eol)))))))).testAt l]

def emailSafe : List (Str → Bool) := [
  fun l => (RE.cat (lit "from:") (.cat dotStar (.cat (.chr '@') (.cat (alts [lit "gmail",
    lit "yahoo", lit "hotmail", lit "outlook"]) (.cat (lit ".com") (.cat dotStar
    (.cat (lit "subject:") (.cat (.star wsc) (alts [lit "meeting", lit "project",
      lit "reminder", lit "invoice", lit "receipt", lit "newsletter"]))))))))).search l,
  fun l => (alts [lit "unsubscribe", dsq (lit "privacy") (lit "policy"),
    dsq (lit "terms") (dsq (lit "of") (lit "service")),
    dsq (lit "customer") (lit "service")]).search l,
  fun l => (alts [dsq (lit "thank") (dsq (lit "you") (dsq (lit "for") (dsq (lit "your")
    (lit "order")))), dsq (lit "your") (dsq (lit "order") (dsq (lit "has")
    (dsq (lit "been") (lit "shipped")))), dsq (lit "delivery") (lit "confirmation")]).search l]

def smsSafe : List (Str → Bool) := [
  fun l => (alts [dsq (lit "your") (lit "appointment"), dsq (lit "meeting") (lit "reminder"),
    dsq (lit "delivery") (lit "notification"),
    dsq (lit "order") (lit "confirmation")]).search l,
  fun l => (RE.cat (lit "verification") (.cat dotStar (.cat (lit "code") (.cat dotStar
    (.cat (between digit 4 6) (.cat dotStar (.cat (lit "expires") (.cat dotStar
    (.cat (lit "in") (.cat dotStar (.cat (atLeast digit 1)
      (.cat dotStar (lit "minutes"))))))))))))).search l,
  fun l => (alts [dsq (lit "reply") (dsq (lit "stop") (dsq (lit "to") (lit "unsubscribe"))),
    dsq (lit "text") (dsq (lit "stop") (dsq (lit "to")
      (dsq (lit "opt") (lit "out"))))]).search l]

def safeIndicators : CType → List (Str → Bool)
  | .url => urlSafe
  | .email => emailSafe
  | .sms => smsSafe

/-- `safeContentMultiplier` (source lines 244–249): 0.6 when any safe
indicator of the category matches the lower-cased content, 1.0 otherwise. -/
def safeMult (t : CType) (content : Str) : ℚ :=
  if (safeIndicators t).any (fun p => p (lower content)) then 6/10 else 1

/-! ## Structural URL analysis (source lines 260–321)

`parseURL` models the host platform's WHATWG `URL` constructor on the inputs
this engine passes to it.  Simplifications, each documented against the real
parser: the scheme must be followed by `://`; tab/newline stripping, percent
decoding and dot-segment path normalisation are not performed; and the host
must be ASCII — the real parser IDNA- or percent-encodes every non-ASCII
authority into an ASCII hostname (or throws), so hostnames observed by the
structural checks, which is all the engine reads, are always ASCII. -/

structure URLParts where
  scheme : Str
  host : Str
  port : Option Nat
  path : Str
  query : Str
  frag : Str
deriving DecidableEq, Repr

def natOfDigits (l : Str) : Nat := l.foldl (fun a c => a * 10 + (c.toNat - 48)) 0

def schemeCharOk (c : Char) : Bool :=
  c.isAlpha || c.isDigit || c = '+' || c = '-' || c = '.'

/-- WHATWG forbidden host code points, plus the ASCII restriction explained
above. -/
def hostCharOk (c : Char) : Bool :=
  0x20 < c.toNat && c.toNat < 0x7f && !("#/:<>?@[]^|\\%".toList.contains c)

/-- Port validation and normalisation: `none` for a throwing port, `some
none` for an absent/default port, `some (some n)` otherwise. -/
def parsePort (schemeL : Str) (portPart : Option Str) : Option (Option Nat) :=
  match portPart with
  | none => some none
  | some pd =>
    if pd = [] then some none
    else if ¬ pd.all Char.isDigit then none
    else
      let n := natOfDigits pd
      if 65535 < n then none
      else if (schemeL = "https".toList ∧ n = 443) ∨ (schemeL = "http".toList ∧ n = 80)
        then some none
      else some (some n)

/-- Path/query/fragment split, applied once scheme, host and port have been
isolated. -/
def finishURL (schemeL hostRaw : Str) (portPart : Option Str) (after : Str) :
    Option URLParts :=
  match parsePort schemeL portPart with
  | none => none
  | some port =>
    let path0 := after.takeWhile (fun c => c ≠ '?' ∧ c ≠ '#')
    let path := if path0 = [] then ['/'] else path0
    let after2 := after.drop path0.length
    let query := after2.takeWhile (fun c => c ≠ '#')
    some ⟨schemeL, lower hostRaw, port, path, query, after2.drop query.length⟩

/-- Host validation gate: an empty, non-ASCII or forbidden-character host
makes the constructor throw. -/
def hostGate (schemeL hostRaw : Str) (portPart : Option Str) (after : Str) :
    Option URLParts :=
  if hostRaw = [] ∨ ¬ hostRaw.all hostCharOk then none
  else finishURL schemeL hostRaw portPart after

def parseURL (s : Str) : Option URLParts :=
  let scheme := s.takeWhile (fun c => c ≠ ':')
  if scheme.length = s.length ∨ scheme = [] then none
  else if ¬ (scheme.head?.elim false Char.isAlpha ∧ scheme.all schemeCharOk) then none
  else
    let rest := (s.drop (scheme.length + 1))
    if ¬ "//".toList.isPrefixOf rest then none
    else
      let rest2 := rest.drop 2
      let auth := rest2.takeWhile (fun c => c ≠ '/' ∧ c ≠ '?' ∧ c ≠ '#')
      let after := rest2.drop auth.length
      let hp := if auth.contains '@' then (auth.reverse.takeWhile (fun c => c ≠ '@')).reverse
        else auth
      let hostRaw := if hp.contains ':' then (hp.reverse.dropWhile (fun c => c ≠ ':')).reverse.dropLast
        else hp
      let portPart := if hp.contains ':' then some ((hp.reverse.takeWhile (fun c => c ≠ ':')).reverse)
        else none
      hostGate (lower scheme) hostRaw portPart after

/-- `url.href`: the serialisation read by the length and sensitive-keyword
checks. -/
def href (u : URLParts) : Str :=
  u.scheme ++ (':' :: '/' :: '/' :: u.host) ++
    (match u.port with
     | some p => ':' :: (toString p).toList
     | none => []) ++ u.path ++ u.query ++ u.frag

/-- `content.startsWith('http') ? content : "https://" + content` (source
line 262). -/
def normalizeUrl (c : Str) : Str :=
  if "http".toList.isPrefixOf c then c else "https://".toList ++ c

def highRiskTlds : List Str := [".tk", ".ml", ".ga", ".cf"].map String.toList

def suspiciousTlds : List Str :=
  [".tk", ".ml", ".ga", ".cf", ".pw", ".top", ".work", ".click", ".download",
   ".review"].map String.toList

/-- Structural homograph class (source line 287): Cyrillic, Greek, Cyrillic
look-alikes and Latin-1 accented letters. -/
def homographStructRe : RE := alts [rng 'а' 'я', greekCls, cls "аеорсукх", rng 'à' 'ö']

/-- `/login|bank|secure|account|payment/i` (source line 300). -/
def sensitiveRe : RE :=
  alts [lit "login", lit "bank", lit "secure", lit "account", lit "payment"]

/-- `/\/(admin|wp-admin|login|signin|secure|verify|update|confirm)\.php/i`. -/
def suspPathRe : RE :=
  .cat (.chr '/') (.cat (alts [lit "admin", lit "wp-admin", lit "login", lit "signin",
    lit "secure", lit "verify", lit "update", lit "confirm"]) (lit ".php"))

/-- Conditionally add a weighted reason to a running (weight, reasons) pair. -/
def addIf (b : Bool) (w : ℚ) (r : String) (acc : ℚ × List String) : ℚ × List String :=
  if b then (acc.1 + w, acc.2 ++ [r]) else acc

/-- An `if / else if` pair of mutually exclusive weighted reasons (the TLD
and subdomain-count checks of the source). -/
def addIf2 (b1 b2 : Bool) (w1 : ℚ) (r1 : String) (w2 : ℚ) (r2 : String)
    (acc : ℚ × List String) : ℚ × List String :=
  if b1 then (acc.1 + w1, acc.2 ++ [r1])
  else if b2 then (acc.1 + w2, acc.2 ++ [r2])
  else acc

/-- The structural checks applied to a successfully parsed URL (source lines
264–315), in source order. -/
def urlStructural (u : URLParts) : ℚ × List String :=
  let acc : ℚ × List String := (0, [])
  let acc := addIf2 (highRiskTlds.any (fun t => t.isSuffixOf u.host))
    (suspiciousTlds.any (fun t => t.isSuffixOf u.host))
    (9/10) "High-risk top-level domain" (7/10) "Suspicious top-level domain" acc
  let subdomainCount := (u.host.splitOn '.').length
  let acc := addIf2 (decide (4 < subdomainCount)) (decide (3 < subdomainCount))
    (7/10) "Excessive subdomain nesting" (4/10) "Multiple subdomains detected" acc
  let acc := addIf (homographStructRe.search (lower u.host)) (95/100)
    "Possible homograph/character substitution attack" acc
  let acc := addIf (match u.port with
      | some p => p != 80 && p != 443
      | none => false) (6/10) "Non-standard port number detected" acc
  let acc := addIf ((u.scheme == "http".toList) && sensitiveRe.search (lower (href u)))
    (8/10) "Insecure HTTP protocol for sensitive content" acc
  let acc := addIf (decide (200 < len16 (href u))) (5/10) "Unusually long URL" acc
  let acc := addIf (suspPathRe.search (lower u.path)) (7/10)
    "Suspicious file path detected" acc
  acc

/-- URL-only structural checks (source lines 260–321), returning the extra
weight and reasons they contribute.  A parse failure contributes the fixed
0.8 penalty and skips every other check. -/
def urlExtra (content : Str) : ℚ × List String :=
  match parseURL (normalizeUrl content) with
  | none => (8/10, ["Malformed URL structure"])
  | some u => urlStructural u

/-! ## Email and SMS heuristics (source lines 324–363) -/

def digComma : RE := RE.grp false [('0', '9'), (',', ',')]

/-- `/\$[\d,]+|£[\d,]+|€[\d,]+|\d+\s*(million|billion|thousand)/i` -/
def moneyRe : RE := alts [
  .cat (.chr '$') (atLeast digComma 1),
  .cat (.chr '£') (atLeast digComma 1),
  .cat (.chr '€') (atLeast digComma 1),
  .cat (atLeast digit 1) (.cat (.star wsc)
    (alts [lit "million", lit "billion", lit "thousand"]))]

/-- `/@[a-z0-9-]+\.(tk|ml|ga|cf|ru|cn)/i` -/
def emailDomRe : RE :=
  .cat (.chr '@') (.cat (atLeast hostCls 1) (.cat (.chr '.')
    (alts [lit "tk", lit "ml", lit "ga", lit "cf", lit "ru", lit "cn"])))

def emailExtra (content : Str) : ℚ × List String :=
  let acc : ℚ × List String := (0, [])
  let acc := addIf ((atLeast (rng 'A' 'Z') 10).search content) (4/10)
    "Excessive use of capital letters" acc
  let acc := addIf ((atLeast (.chr '!') 3).search content) (3/10)
    "Excessive punctuation usage" acc
  let acc := addIf (emailDomRe.search (lower content)) (7/10)
    "Suspicious email domain in content" acc
  let acc := addIf (moneyRe.search (lower content)) (6/10)
    "Large monetary amounts mentioned" acc
  acc

/-- `/from:\s*\d{5,6}[^0-9]/i` -/
def smsSpoof1 : RE :=
  .cat (lit "from:") (.cat (.star wsc) (.cat (between digit 5 6) (RE.grp true [('0', '9')])))

/-- `/reply.*\d{5}/` (no `i` flag in the source). -/
def smsSpoof2 : RE := .cat (lit "reply") (.cat dotStar (reps digit 5))

/-- SMS heuristics; the length check reads the reasons matched so far
(which, for the sms category, are exactly the rule-stage reasons). -/
def smsExtra (content : Str) (reasonsSoFar : List String) : ℚ × List String :=
  let acc : ℚ × List String := (0, [])
  let acc := addIf (decide (len16 content < 50) && !reasonsSoFar.isEmpty) (3/10)
    "Short message with suspicious content" acc
  let acc := addIf (smsSpoof1.search (lower content) || smsSpoof2.search content) (6/10)
    "Suspicious sender number pattern" acc
  acc

/-! ## Aggregation and classification (source lines 218–390) -/

/-- The rule-registry loop (source lines 252–257): every matching rule adds
`weight * safeContentMultiplier` and appends its reason. -/
def ruleStage (rules : List FraudRule) (m : ℚ) (content : Str) : ℚ × List String :=
  rules.foldl
    (fun acc r => if r.test content then (acc.1 + r.weight * m, acc.2 ++ [r.reason]) else acc)
    (0, [])

/-- `(totalWeight, matchedReasons)` of one evaluation, before the
empty/threshold decisions. -/
def score (t : CType) (content : Str) : ℚ × List String :=
  let m := safeMult t content
  let rs := ruleStage (fraudPatterns t) m content
  match t with
  | .url => ((rs.1 + (urlExtra content).1), rs.2 ++ (urlExtra content).2)
  | .email => ((rs.1 + (emailExtra content).1), rs.2 ++ (emailExtra content).2)
  | .sms => ((rs.1 + (smsExtra content rs.2).1), rs.2 ++ (smsExtra content rs.2).2)

inductive Threat where
  | low
  | medium
  | high
deriving DecidableEq, Repr

/-- The result record (`FraudAlert` in the source).  The nondeterministic
`id` and `timestamp` fields carry no logic and are omitted. -/
structure FraudAlert where
  content : Str
  threat : Threat
  confidence : ℚ
  reasons : List String
  blocked : Bool
deriving DecidableEq, Repr

/-- Source lines 376–378. `n` is the pre-truncation reason count. -/
def confFormula (tw : ℚ) (n : ℕ) : ℚ :=
  min (min (tw / 3) (98/100) + min ((n : ℚ) * (5/100)) (15/100)) (99/100)

def mkAlert (content : Str) (s : ℚ × List String) (thr : Threat) : FraudAlert :=
  { content := take16 300 content
    threat := thr
    confidence := confFormula s.1 s.2.length
    reasons := s.2.take 10
    blocked := (thr == .high) ||
      ((thr == .medium) && decide ((75 : ℚ)/100 < confFormula s.1 s.2.length)) }

/-- `analyzeContent` (source lines 218–390). -/
def analyzeContent (isEnabled : Bool) (t : CType) (content : Str) : Option FraudAlert :=
  if !isEnabled || isBlank content then none
  else
    let s := score t content
    if s.2.isEmpty then none
    else if 2 ≤ s.1 then some (mkAlert content s .high)
    else if 12/10 ≤ s.1 then some (mkAlert content s .medium)
    else if 6/10 ≤ s.1 then some (mkAlert content s .low)
    else none

/-! ## Alert history (source lines 407–408 and 501–502):
`setAlerts(prev => [alert, ...prev.slice(0, 9)])`, executed only for
non-null evaluations. -/

def pushAlert (a : FraudAlert) (prev : List FraudAlert) : List FraudAlert :=
  a :: prev.take 9

def handleResult (r : Option FraudAlert) (h : List FraudAlert) : List FraudAlert :=
  match r with
  | none => h
  | some a => pushAlert a h

def pushAll (l : List FraudAlert) (h : List FraudAlert) : List FraudAlert :=
  l.foldl (fun h a => pushAlert a h) h

/-! ## Decomposition of the score, for the aggregation claims -/

/-- Sum of the matched rules' registry weights, before safe-content scaling. -/
def ruleWeightRaw (t : CType) (content : Str) : ℚ :=
  (((fraudPatterns t).filter (fun r => r.test content)).map FraudRule.weight).sum

/-- Reasons contributed by the rule registry, in table order. -/
def ruleReasons (t : CType) (content : Str) : List String :=
  ((fraudPatterns t).filter (fun r => r.test content)).map FraudRule.reason

/-- Extra weight of the structural / category-specific stage. -/
def extraWeight (t : CType) (content : Str) : ℚ :=
  match t with
  | .url => (urlExtra content).1
  | .email => (emailExtra content).1
  | .sms => (smsExtra content (ruleReasons .sms content)).1

/-- Threat level as a function of the final weight, for result
characterisation (source lines 369–373 collapse to this once the three
thresholds are ordered). -/
def threatOf (tw : ℚ) : Threat :=
  if 2 ≤ tw then .high else if 12/10 ≤ tw then .medium else .low

/-! ## General lemmas about the engine -/

theorem ruleStage_foldl (rules : List FraudRule) (m : ℚ) (c : Str)
    (acc : ℚ × List String) :
    rules.foldl
      (fun acc r => if r.test c then (acc.1 + r.weight * m, acc.2 ++ [r.reason]) else acc)
      acc =
    (acc.1 + ((rules.filter (fun r => r.test c)).map FraudRule.weight).sum * m,
     acc.2 ++ (rules.filter (fun r => r.test c)).map FraudRule.reason) := by
  induction rules generalizing acc with
  | nil => simp
  | cons r rs ih =>
    by_cases hr : r.test c = true
    · simp only [List.foldl_cons, hr, if_true, List.filter_cons_of_pos, List.map_cons,
        List.sum_cons, ih]
      refine congrArg₂ Prod.mk ?_ ?_
      · ring
      · simp
    · have hr' : r.test c = false := by simpa using hr
      simp [List.foldl_cons, hr', ih]

theorem ruleStage_eq (rules : List FraudRule) (m : ℚ) (c : Str) :
    ruleStage rules m c =
      (((rules.filter (fun r => r.test c)).map FraudRule.weight).sum * m,
       (rules.filter (fun r => r.test c)).map FraudRule.reason) := by
  unfold ruleStage
  rw [ruleStage_foldl]
  simp

/-- Every registered rule weight is positive (spec §3 invariant). -/
theorem fraudPatterns_weight_pos (t : CType) : ∀ r ∈ fraudPatterns t, 0 < r.weight := by
  cases t <;> exact of_decide_eq_true (by with_unfolding_all rfl)

theorem ruleWeightRaw_nonneg (t : CType) (c : Str) : 0 ≤ ruleWeightRaw t c := by
  apply List.sum_nonneg
  intro x hx
  obtain ⟨r, hr, rfl⟩ := List.mem_map.mp hx
  exact le_of_lt (fraudPatterns_weight_pos t r (List.mem_of_mem_filter hr))

theorem safeMult_pos (t : CType) (c : Str) : 0 < safeMult t c := by
  unfold safeMult
  split <;> norm_num

theorem safeMult_le_one (t : CType) (c : Str) : safeMult t c ≤ 1 := by
  unfold safeMult
  split <;> norm_num

/-- The rule stage of `score` in closed form. -/
theorem score_ruleStage (t : CType) (c : Str) :
    ruleStage (fraudPatterns t) (safeMult t c) c =
      (ruleWeightRaw t c * safeMult t c, ruleReasons t c) := by
  rw [ruleStage_eq]
  rfl

/-- C1 (amended): how the safe multiplier actually enters the total. -/
theorem score_decomposition (t : CType) (c : Str) :
    (score t c).1 = ruleWeightRaw t c * safeMult t c + extraWeight t c := by
  cases t <;> simp [score, score_ruleStage, extraWeight]

/-- C1 (amended): the safe-content multiplier scales only the weights
contributed by the rule registry; the structural and category-heuristic
extra weights are added unscaled, so the final score is
`ruleWeight * safeMultiplier + extraWeight`, not
`(ruleWeight + extraWeight) * safeMultiplier`. -/
theorem claim1_safe_multiplier (t : CType) (c : Str) :
    (score t c).1 = ruleWeightRaw t c * safeMult t c + extraWeight t c :=
  score_decomposition t c

/-- C1 counterexample: on `https://www.google.com:8080` the rule registry
contributes 1.45, the structural stage 0.6, and a safe indicator matches, so
the code computes 1.45·0.6 + 0.6 = 1.47 while the claimed
`(ruleWeight + extraWeight) * safeMultiplier` would be 2.05·0.6 = 1.23. -/
theorem claim1_counterexample :
    (score .url ("https://www.google.com:8080".toList)).1 ≠
      (ruleWeightRaw .url ("https://www.google.com:8080".toList) +
        extraWeight .url ("https://www.google.com:8080".toList)) *
        safeMult .url ("https://www.google.com:8080".toList) :=
  of_decide_eq_true (by with_unfolding_all rfl)

/-- C2: with at least one collected reason, the threat level follows the
2.0 / 1.2 / 0.6 threshold chain, highest first, and a sub-0.6 total yields
null. -/
theorem claim2_threat_thresholds (t : CType) (c : Str)
    (hb : isBlank c = false) (hr : (score t c).2 ≠ []) :
    (analyzeContent true t c).map FraudAlert.threat =
      (if 2 ≤ (score t c).1 then some .high
       else if 12/10 ≤ (score t c).1 then some .medium
       else if 6/10 ≤ (score t c).1 then some .low
       else none) := by
  have hempty : (score t c).2.isEmpty = false := by
    cases h : (score t c).2 <;> simp_all
  unfold analyzeContent
  simp only [Bool.not_true, Bool.false_or, hb, hempty, Bool.false_eq_true, if_false]
  split_ifs <;> simp [mkAlert]

/-- C2 witness at the sms content "congratulations" (score 1.25 → Medium). -/
theorem claim2_threat_thresholds_witness :
    isBlank ("congratulations".toList) = false ∧
    (score .sms ("congratulations".toList)).2 ≠ [] ∧
    (analyzeContent true .sms ("congratulations".toList)).map FraudAlert.threat =
      (if 2 ≤ (score .sms ("congratulations".toList)).1 then some .high
       else if 12/10 ≤ (score .sms ("congratulations".toList)).1 then some .medium
       else if 6/10 ≤ (score .sms ("congratulations".toList)).1 then some .low
       else none) :=
  ⟨of_decide_eq_true (by with_unfolding_all rfl),
   of_decide_eq_true (by with_unfolding_all rfl),
   claim2_threat_thresholds .sms _ (of_decide_eq_true (by with_unfolding_all rfl))
     (of_decide_eq_true (by with_unfolding_all rfl))⟩

/-- C3: disabled engine, blank content, or an evaluation with zero collected
reasons all yield null, and a null result leaves the alert history
untouched. -/
theorem claim3_null_cases (t : CType) (c : Str) (en : Bool) (h : List FraudAlert) :
    analyzeContent false t c = none ∧
    (isBlank c = true → analyzeContent en t c = none) ∧
    ((score t c).2 = [] → analyzeContent en t c = none) ∧
    handleResult none h = h := by
  refine ⟨by simp [analyzeContent], fun hb => by simp [analyzeContent, hb], fun hs => ?_, rfl⟩
  cases en <;> cases hb : isBlank c <;> simp [analyzeContent, hb, hs]

/-- C3 witness: a disabled evaluation, a whitespace-only content, a URL with
zero matched signals (`https://www.github.com/org/repo`), and a null update
of a history. -/
theorem claim3_null_cases_witness :
    analyzeContent false .url ("https://www.github.com/org/repo".toList) = none ∧
    analyzeContent true .email ("   ".toList) = none ∧
    analyzeContent true .url ("https://www.github.com/org/repo".toList) = none ∧
    handleResult none ([] : List FraudAlert) = [] :=
  ⟨(claim3_null_cases .url _ true []).1,
   (claim3_null_cases .email _ true []).2.1 (of_decide_eq_true (by with_unfolding_all rfl)),
   (claim3_null_cases .url _ true []).2.2.1 (of_decide_eq_true (by with_unfolding_all rfl)),
   (claim3_null_cases .url [] true []).2.2.2⟩

/-- Characterisation of a non-null evaluation: content not blank, at least
one reason, total weight at least 0.6, and the result is the constructed
alert with the threshold-derived threat level. -/
theorem analyze_some_iff (t : CType) (c : Str) (a : FraudAlert) :
    analyzeContent true t c = some a ↔
      isBlank c = false ∧ (score t c).2 ≠ [] ∧ 6/10 ≤ (score t c).1 ∧
        a = mkAlert c (score t c) (threatOf (score t c).1) := by
  unfold analyzeContent threatOf
  cases hb : isBlank c
  case true => simp [hb]
  case false =>
    simp only [Bool.not_true, Bool.false_or, hb, Bool.false_eq_true, if_false,
      eq_self_iff_true, true_and]
    cases hemp : (score t c).2.isEmpty
    case true =>
      have h2 : (score t c).2 = [] := by
        cases h : (score t c).2 <;> simp_all
      simp [h2]
    case false =>
      have hne : (score t c).2 ≠ [] := by
        cases h : (score t c).2 <;> simp_all
      simp only [Bool.false_eq_true, if_false, ne_eq, hne, not_false_iff, true_and,
        not_false_eq_true]
      split_ifs with h1 h2 h3
      · rw [Option.some.injEq]
        constructor
        · rintro rfl; exact ⟨by linarith, rfl⟩
        · rintro ⟨-, rfl⟩; rfl
      · rw [Option.some.injEq]
        constructor
        · rintro rfl; exact ⟨by linarith, rfl⟩
        · rintro ⟨-, rfl⟩; rfl
      · rw [Option.some.injEq]
        constructor
        · rintro rfl; exact ⟨h3, rfl⟩
        · rintro ⟨-, rfl⟩; rfl
      · constructor
        · intro h; exact h.elim
        · rintro ⟨h, -⟩; exact absurd h h3

theorem score_url_eq (c : Str) :
    score .url c = (ruleWeightRaw .url c * safeMult .url c + (urlExtra c).1,
      ruleReasons .url c ++ (urlExtra c).2) := by
  simp [score, score_ruleStage]

theorem score_email_eq (c : Str) :
    score .email c = (ruleWeightRaw .email c * safeMult .email c + (emailExtra c).1,
      ruleReasons .email c ++ (emailExtra c).2) := by
  simp [score, score_ruleStage]

theorem score_sms_eq (c : Str) :
    score .sms c =
      (ruleWeightRaw .sms c * safeMult .sms c + (smsExtra c (ruleReasons .sms c)).1,
       ruleReasons .sms c ++ (smsExtra c (ruleReasons .sms c)).2) := by
  simp [score, score_ruleStage]

/-- The expected result record for the C4 witness input. -/
def c4Alert : FraudAlert :=
  ⟨"winner".toList, .low, 11/30, ["Prize/lottery scam indicators"], false⟩

/-- C4: the confidence of every non-null result equals
`min(min(totalWeight/3, 0.98) + min(reasonCount*0.05, 0.15), 0.99)` with the
pre-truncation reason count. -/
theorem claim4_confidence (t : CType) (c : Str) (a : FraudAlert)
    (h : analyzeContent true t c = some a) :
    a.confidence =
      min (min ((score t c).1 / 3) 0.98 +
        min (((score t c).2.length : ℚ) * 0.05) 0.15) 0.99 := by
  obtain ⟨-, -, -, rfl⟩ := (analyze_some_iff t c a).mp h
  show confFormula (score t c).1 (score t c).2.length = _
  unfold confFormula
  norm_num

theorem claim4_confidence_witness :
    c4Alert.confidence =
      min (min ((score .email ("winner".toList)).1 / 3) 0.98 +
        min (((score .email ("winner".toList)).2.length : ℚ) * 0.05) 0.15) 0.99 :=
  claim4_confidence .email ("winner".toList) c4Alert
    (of_decide_eq_true (by with_unfolding_all rfl))

/-- C5: a non-null result is blocked exactly when its threat is High, or
Medium with confidence strictly above 0.75; a Low result is never blocked. -/
theorem claim5_blocked (t : CType) (c : Str) (a : FraudAlert)
    (h : analyzeContent true t c = some a) :
    (a.blocked = true ↔ (a.threat = .high ∨ (a.threat = .medium ∧ 0.75 < a.confidence))) ∧
    (a.threat = .low → a.blocked = false) := by
  obtain ⟨-, -, -, rfl⟩ := (analyze_some_iff t c a).mp h
  cases hth : threatOf (score t c).1 <;> simp [mkAlert, hth, decide_eq_true_eq]
  all_goals norm_num

/-- The expected result record for the C5 witness input. -/
def c5Alert : FraudAlert :=
  ⟨"congratulations you won a free prize, claim now, urgent".toList, .high, 14/15,
    ["Prize scam indicators", "Creates false urgency", "Too-good-to-be-true offers"], true⟩

theorem claim5_blocked_witness :
    (c5Alert.blocked = true ↔
      (c5Alert.threat = .high ∨ (c5Alert.threat = .medium ∧ 0.75 < c5Alert.confidence))) ∧
    (c5Alert.threat = .low → c5Alert.blocked = false) :=
  claim5_blocked .sms ("congratulations you won a free prize, claim now, urgent".toList)
    c5Alert (of_decide_eq_true (by with_unfolding_all rfl))

/-- C10: the confidence of every non-null result lies in [0.25, 0.99]. -/
theorem claim10_conf_bounds (t : CType) (c : Str) (a : FraudAlert)
    (h : analyzeContent true t c = some a) :
    1/4 ≤ a.confidence ∧ a.confidence ≤ 0.99 := by
  obtain ⟨-, hne, hw, rfl⟩ := (analyze_some_iff t c a).mp h
  have hn : 1 ≤ (score t c).2.length := by
    cases hs : (score t c).2 <;> simp_all
  show 1/4 ≤ confFormula (score t c).1 (score t c).2.length ∧
    confFormula (score t c).1 (score t c).2.length ≤ 0.99
  unfold confFormula
  constructor
  · have h1 : (1:ℚ)/5 ≤ min ((score t c).1 / 3) (98/100) :=
      le_min (by linarith) (by norm_num)
    have hq : (1:ℚ) ≤ ((score t c).2.length : ℚ) := by exact_mod_cast hn
    have h2 : (1:ℚ)/20 ≤ min (((score t c).2.length : ℚ) * (5/100)) (15/100) := by
      refine le_min ?_ (by norm_num)
      nlinarith
    refine le_min (by linarith) (by norm_num)
  · exact le_trans (min_le_right _ _) (by norm_num)

/-- The expected result record for the C10 witness input. -/
def c10Alert : FraudAlert :=
  ⟨"lottery".toList, .low, 11/30, ["Prize/lottery scam indicators"], false⟩

theorem claim10_conf_bounds_witness :
    1/4 ≤ c10Alert.confidence ∧ c10Alert.confidence ≤ 0.99 :=
  claim10_conf_bounds .email ("lottery".toList) c10Alert
    (of_decide_eq_true (by with_unfolding_all rfl))

/-- C7: the alert history is bounded by 10 entries under arbitrary pushes,
and after 15 non-null evaluations exactly the 10 most recent results remain,
newest first. -/
theorem claim7_history (l : List FraudAlert) (h : List FraudAlert)
    (a1 a2 a3 a4 a5 a6 a7 a8 a9 a10 a11 a12 a13 a14 a15 : FraudAlert) :
    (h.length ≤ 10 → (pushAll l h).length ≤ 10) ∧
    pushAll [a1, a2, a3, a4, a5, a6, a7, a8, a9, a10, a11, a12, a13, a14, a15] [] =
      [a15, a14, a13, a12, a11, a10, a9, a8, a7, a6] := by
  constructor
  · intro hlen
    induction l generalizing h with
    | nil => exact hlen
    | cons a l ih =>
      refine ih (pushAlert a h) ?_
      simp only [pushAlert, List.length_cons, List.length_take]
      omega
  · rfl

/-- A dummy alert used by the C7 witness. -/
def dAlert : FraudAlert := ⟨[], .low, 0, [], false⟩

theorem claim7_history_witness :
    (pushAll [dAlert] []).length ≤ 10 ∧
    pushAll [dAlert, dAlert, dAlert, dAlert, dAlert, dAlert, dAlert, dAlert, dAlert,
        dAlert, dAlert, dAlert, dAlert, dAlert, dAlert] [] =
      [dAlert, dAlert, dAlert, dAlert, dAlert, dAlert, dAlert, dAlert, dAlert, dAlert] :=
  ⟨(claim7_history [dAlert] [] dAlert dAlert dAlert dAlert dAlert dAlert dAlert dAlert
      dAlert dAlert dAlert dAlert dAlert dAlert dAlert).1 (by simp),
   (claim7_history [] [] dAlert dAlert dAlert dAlert dAlert dAlert dAlert dAlert dAlert
      dAlert dAlert dAlert dAlert dAlert dAlert).2⟩

/-- C8: when structural URL parsing fails (after prepending the https scheme
if absent), the structural stage contributes exactly the fixed 0.8 penalty
with the malformed-URL reason and performs no other structural check, and the
evaluation still returns a (non-null) result for non-blank content. -/
theorem claim8_malformed (c : Str) (hp : parseURL (normalizeUrl c) = none) :
    urlExtra c = (0.8, ["Malformed URL structure"]) ∧
    (isBlank c = false → ∃ a, analyzeContent true .url c = some a) := by
  have hextra : urlExtra c = (8/10, ["Malformed URL structure"]) := by
    unfold urlExtra
    rw [hp]
  have h08 : (0.8 : ℚ) = 8/10 := by norm_num
  refine ⟨by rw [hextra, h08], ?_⟩
  intro hb
  have hs := score_url_eq c
  have hw1 : (score .url c).1 = ruleWeightRaw .url c * safeMult .url c + 8/10 := by
    simp [hs, hextra]
  have h0 : 0 ≤ ruleWeightRaw .url c * safeMult .url c :=
    mul_nonneg (ruleWeightRaw_nonneg _ _) (le_of_lt (safeMult_pos _ _))
  have hw : 6/10 ≤ (score .url c).1 := by
    rw [hw1]
    linarith
  have hne : (score .url c).2 ≠ [] := by
    simp [hs, hextra]
  exact ⟨_, (analyze_some_iff _ _ _).mpr ⟨hb, hne, hw, rfl⟩⟩

/-- C8 witness at the unparsable input "not a url". -/
theorem claim8_malformed_witness :
    urlExtra ("not a url".toList) = (0.8, ["Malformed URL structure"]) ∧
    (∃ a, analyzeContent true .url ("not a url".toList) = some a) :=
  ⟨(claim8_malformed ("not a url".toList)
      (of_decide_eq_true (by with_unfolding_all rfl))).1,
   (claim8_malformed ("not a url".toList)
      (of_decide_eq_true (by with_unfolding_all rfl))).2
      (of_decide_eq_true (by with_unfolding_all rfl))⟩

end Phish

namespace Phish

theorem noEol_altS (a b : RE) (ha : a.noEol = true) (hb : b.noEol = true) :
    (altS a b).noEol = true := by
  cases a <;> cases b <;> simp_all [altS, RE.noEol]

theorem noEol_catS (a b : RE) (ha : a.noEol = true) (hb : b.noEol = true) :
    (catS a b).noEol = true := by
  cases a <;> cases b <;> simp_all [catS, RE.noEol]

theorem noEol_deriv (r : RE) (c : Char) (h : r.noEol = true) :
    (r.deriv c).noEol = true := by
  induction r with
  | emp => simp [RE.deriv, RE.noEol]
  | eps => simp [RE.deriv, RE.noEol]
  | chr d => simp only [RE.deriv]; split <;> simp [RE.noEol]
  | grp n rs => simp only [RE.deriv]; split <;> simp [RE.noEol]
  | eol => simp [RE.deriv, RE.noEol]
  | alt a b iha ihb =>
    simp only [RE.noEol, Bool.and_eq_true] at h
    exact noEol_altS _ _ (iha h.1) (ihb h.2)
  | cat a b iha ihb =>
    simp only [RE.noEol, Bool.and_eq_true] at h
    refine noEol_altS _ _ (noEol_catS _ _ (iha h.1) h.2) ?_
    split
    · exact ihb h.2
    · rfl
  | star a iha =>
    simp only [RE.noEol] at h
    exact noEol_catS _ _ (iha h) (by simpa [RE.noEol] using h)

theorem nullableAt_noEol (r : RE) (h : r.noEol = true) (e e' : Bool) :
    r.nullableAt e = r.nullableAt e' := by
  induction r <;> simp_all [RE.noEol, RE.nullableAt]

theorem testAt_of_nullable (r : RE) (h : r.noEol = true)
    (hn : r.nullableAt true = true) (v : Str) : r.testAt v = true := by
  cases v with
  | nil => simpa [RE.testAt] using hn
  | cons c t =>
    have : r.nullableAt false = true := (nullableAt_noEol r h false true).symm ▸ hn
    simp [RE.testAt, this]

theorem testAt_append (r : RE) (h : r.noEol = true) (u v : Str)
    (hm : r.testAt u = true) : r.testAt (u ++ v) = true := by
  induction u generalizing r with
  | nil =>
    simp only [List.nil_append]
    exact testAt_of_nullable r h (by simpa [RE.testAt] using hm) v
  | cons c u' ih =>
    simp only [RE.testAt, Bool.or_eq_true] at hm
    rcases hm with hm | hm
    · simp [RE.testAt, hm]
    · have := ih (r.deriv c) (noEol_deriv r c h) hm
      simp [RE.testAt, this]

theorem search_of_testAt (r : RE) (s : Str) (hm : r.testAt s = true) :
    r.search s = true := by
  cases s <;> simp [RE.search, hm]

theorem search_append (r : RE) (h : r.noEol = true) (u v : Str)
    (hm : r.search u = true) : r.search (u ++ v) = true := by
  induction u with
  | nil =>
    simp only [RE.search] at hm
    exact search_of_testAt r v (testAt_of_nullable r h (by simpa [RE.testAt] using hm) v)
  | cons c u' ih =>
    simp only [RE.search, Bool.or_eq_true] at hm
    rcases hm with hm | hm
    · exact search_of_testAt r _ (testAt_append r h _ v hm)
    · have := ih hm
      simp [RE.search, this]

theorem lower_append (u v : Str) : lower (u ++ v) = lower u ++ lower v := by
  simp [lower]

/-- A case-insensitive rule whose pattern has no end anchor keeps matching
when text is appended. -/
theorem ruleIC_mono (re : RE) (rsn : String) (w : ℚ) (h : re.noEol = true)
    (u v : Str) (ht : (ruleIC re rsn w).test u = true) :
    (ruleIC re rsn w).test (u ++ v) = true := by
  simp only [ruleIC] at ht ⊢
  rw [lower_append]
  exact search_append re h _ _ ht

theorem smsRules_mono : ∀ r ∈ smsRules, ∀ u v : Str,
    r.test u = true → r.test (u ++ v) = true := by
  intro r hr
  simp only [smsRules, List.mem_cons, List.not_mem_nil, or_false] at hr
  rcases hr with rfl|rfl|rfl|rfl|rfl|rfl|rfl|rfl|rfl|rfl|rfl|rfl <;>
    exact ruleIC_mono _ _ _ (of_decide_eq_true (by with_unfolding_all rfl))

end Phish

namespace Phish

theorem filter_mono_sum (rules : List FraudRule) (b e : Str)
    (hmono : ∀ r ∈ rules, r.test b = true → r.test e = true)
    (hpos : ∀ r ∈ rules, 0 < r.weight) :
    ((rules.filter (fun r => r.test b)).map FraudRule.weight).sum ≤
      ((rules.filter (fun r => r.test e)).map FraudRule.weight).sum ∧
    (rules.filter (fun r => r.test b)).length ≤
      (rules.filter (fun r => r.test e)).length := by
  induction rules with
  | nil => simp
  | cons r rs ih =>
    have ihh := ih (fun x hx h => hmono x (List.mem_cons_of_mem _ hx) h)
      (fun x hx => hpos x (List.mem_cons_of_mem _ hx))
    have hrw : 0 < r.weight := hpos r (List.mem_cons_self _ _)
    by_cases hb : r.test b = true
    · have he : r.test e = true := hmono r (List.mem_cons_self _ _) hb
      simp only [List.filter_cons, hb, he, if_true, List.map_cons, List.sum_cons,
        List.length_cons]
      exact ⟨by linarith [ihh.1], by omega⟩
    · have hb' : r.test b = false := by simpa using hb
      by_cases he : r.test e = true
      · simp only [List.filter_cons, hb', he, if_true, Bool.false_eq_true, if_false,
          List.map_cons, List.sum_cons, List.length_cons]
        exact ⟨by linarith [ihh.1], by omega⟩
      · have he' : r.test e = false := by simpa using he
        simp only [List.filter_cons, hb', he', Bool.false_eq_true, if_false]
        exact ihh

theorem ruleWeightRaw_sms_mono (b t : Str) :
    ruleWeightRaw .sms b ≤ ruleWeightRaw .sms (b ++ t) ∧
    (ruleReasons .sms b).length ≤ (ruleReasons .sms (b ++ t)).length := by
  have h := filter_mono_sum smsRules b (b ++ t)
    (fun r hr h => smsRules_mono r hr b t h) (fraudPatterns_weight_pos .sms)
  constructor
  · exact h.1
  · simpa [ruleReasons, fraudPatterns] using h.2

theorem len16_append (u v : Str) : len16 (u ++ v) = len16 u + len16 v := by
  simp [len16]

theorem smsExtra_mono (b t : Str) (hlen : 50 ≤ len16 b) (r1 r2 : List String) :
    (smsExtra b r1).1 ≤ (smsExtra (b ++ t) r2).1 ∧
    (smsExtra b r1).2.length ≤ (smsExtra (b ++ t) r2).2.length := by
  have h1 : decide (len16 b < 50) = false := decide_eq_false (by omega)
  have h2 : decide (len16 (b ++ t) < 50) = false := by
    rw [len16_append]
    exact decide_eq_false (by omega)
  unfold smsExtra addIf
  simp only [h1, h2, Bool.false_and, if_false, Bool.false_eq_true]
  by_cases hs : (smsSpoof1.search (lower b) || smsSpoof2.search b) = true
  · have hs2 : (smsSpoof1.search (lower (b ++ t)) || smsSpoof2.search (b ++ t)) = true := by
      have hs' : smsSpoof1.search (lower b) = true ∨ smsSpoof2.search b = true := by
        simpa using hs
      rcases hs' with h | h
      · have hh : smsSpoof1.search (lower (b ++ t)) = true := by
          rw [lower_append]
          exact search_append _ (of_decide_eq_true (by with_unfolding_all rfl)) _ _ h
        simp [hh]
      · have hh : smsSpoof2.search (b ++ t) = true :=
          search_append _ (of_decide_eq_true (by with_unfolding_all rfl)) _ _ h
        simp [hh]
    simp [hs, hs2]
  · have hs' : (smsSpoof1.search (lower b) || smsSpoof2.search b) = false := by
      simpa using hs
    simp only [hs', Bool.false_eq_true, if_false]
    split
    · simp
      norm_num
    · simp

def rankT : Threat → Nat
  | .low => 1
  | .medium => 2
  | .high => 3

def threatRank : Option FraudAlert → Nat
  | none => 0
  | some a => rankT a.threat

def confOf : Option FraudAlert → ℚ
  | none => 0
  | some a => a.confidence

theorem threatOf_mono (t1 t2 : ℚ) (h : t1 ≤ t2) :
    rankT (threatOf t1) ≤ rankT (threatOf t2) := by
  unfold threatOf
  split_ifs <;> simp [rankT] <;> linarith

theorem confFormula_mono (t1 t2 : ℚ) (n1 n2 : ℕ) (hw : t1 ≤ t2) (hn : n1 ≤ n2) :
    confFormula t1 n1 ≤ confFormula t2 n2 := by
  unfold confFormula
  have h1 : t1 / 3 ≤ t2 / 3 := by linarith
  have h2 : ((n1 : ℚ)) * (5/100) ≤ ((n2 : ℚ)) * (5/100) := by
    have hc : (n1 : ℚ) ≤ n2 := by exact_mod_cast hn
    nlinarith
  exact min_le_min (add_le_add (min_le_min h1 le_rfl) (min_le_min h2 le_rfl)) le_rfl

theorem confFormula_lb (tw : ℚ) (n : ℕ) (hw : 6/10 ≤ tw) (hn : 1 ≤ n) :
    1/4 ≤ confFormula tw n := by
  unfold confFormula
  have h1 : (1:ℚ)/5 ≤ min (tw / 3) (98/100) := le_min (by linarith) (by norm_num)
  have hq : (1:ℚ) ≤ (n : ℚ) := by exact_mod_cast hn
  have h2 : (1:ℚ)/20 ≤ min ((n : ℚ) * (5/100)) (15/100) := by
    refine le_min ?_ (by norm_num)
    nlinarith
  exact le_min (by linarith) (by norm_num)

theorem isBlank_append_false (b t : Str) (h : isBlank b = false) :
    isBlank (b ++ t) = false := by
  unfold isBlank at h ⊢
  rw [List.all_append]
  simp [h]

theorem score_sms_mono (b t : Str) (hlen : 50 ≤ len16 b)
    (hsafe : safeMult .sms b = safeMult .sms (b ++ t)) :
    (score .sms b).1 ≤ (score .sms (b ++ t)).1 ∧
    (score .sms b).2.length ≤ (score .sms (b ++ t)).2.length := by
  have hrm := ruleWeightRaw_sms_mono b t
  have hem := smsExtra_mono b t hlen (ruleReasons .sms b) (ruleReasons .sms (b ++ t))
  have hw : ruleWeightRaw .sms b * safeMult .sms b ≤
      ruleWeightRaw .sms (b ++ t) * safeMult .sms (b ++ t) := by
    rw [← hsafe]
    exact mul_le_mul_of_nonneg_right hrm.1 (le_of_lt (safeMult_pos _ _))
  rw [score_sms_eq b, score_sms_eq (b ++ t)]
  constructor
  · have := hem.1
    simp only
    linarith
  · simp only [List.length_append]
    have h1 := hrm.2
    have h2 := hem.2
    omega

end Phish

namespace Phish

/-- C6 (amended, sms): for the SMS category, appending any suffix to a base
of UTF-16 length at least 50 (so the short-message bonus applies to neither
evaluation), with unchanged safe-indicator status, never decreases the total
weight, the threat level, or the confidence. -/
theorem claim6_sms_monotonic (b t : Str) (hlen : 50 ≤ len16 b)
    (hsafe : safeMult .sms b = safeMult .sms (b ++ t)) :
    (score .sms b).1 ≤ (score .sms (b ++ t)).1 ∧
    threatRank (analyzeContent true .sms b) ≤
      threatRank (analyzeContent true .sms (b ++ t)) ∧
    confOf (analyzeContent true .sms b) ≤ confOf (analyzeContent true .sms (b ++ t)) := by
  obtain ⟨hw, hc⟩ := score_sms_mono b t hlen hsafe
  refine ⟨hw, ?_⟩
  cases hb : analyzeContent true .sms b with
  | none =>
    cases he : analyzeContent true .sms (b ++ t) with
    | none => simp [threatRank, confOf]
    | some a2 =>
      obtain ⟨-, hne2, hw2, rfl⟩ := (analyze_some_iff _ _ _).mp he
      have hn2 : 1 ≤ (score .sms (b ++ t)).2.length := by
        cases hx : (score .sms (b ++ t)).2 <;> simp_all
      constructor
      · simp [threatRank]
      · have hlb := confFormula_lb (score .sms (b ++ t)).1 (score .sms (b ++ t)).2.length
          hw2 hn2
        simp only [confOf, mkAlert]
        linarith
  | some a1 =>
    obtain ⟨hbl, hne1, hw1, rfl⟩ := (analyze_some_iff _ _ _).mp hb
    have hble : isBlank (b ++ t) = false := isBlank_append_false b t hbl
    have hne2 : (score .sms (b ++ t)).2 ≠ [] := by
      intro h0
      have h1 : (score .sms b).2.length = 0 := by
        rw [h0] at hc
        simpa using hc
      exact hne1 (List.length_eq_zero.mp h1)
    have he : analyzeContent true .sms (b ++ t) =
        some (mkAlert (b ++ t) (score .sms (b ++ t))
          (threatOf (score .sms (b ++ t)).1)) :=
      (analyze_some_iff _ _ _).mpr ⟨hble, hne2, le_trans hw1 hw, rfl⟩
    rw [he]
    constructor
    · simp only [threatRank, mkAlert]
      exact threatOf_mono _ _ hw
    · simp only [confOf, mkAlert]
      exact confFormula_mono _ _ _ _ hw hc

/-- C6 counterexample: the sms base "congratulations" scores 0.95 + 0.3
(short-message bonus) = 1.25 → Medium with confidence 31/60; appending three
more copies of the matching prize indicator pushes the length past 50, the
bonus is lost, and the extended text scores 0.95 → Low with confidence
11/30: total weight, threat level and confidence all strictly decrease. -/
theorem claim6_counterexample :
    ("congratulations congratulations congratulations congratulations".toList =
      "congratulations".toList ++
        " congratulations congratulations congratulations".toList) ∧
    (score .sms
        ("congratulations congratulations congratulations congratulations".toList)).1 <
      (score .sms ("congratulations".toList)).1 ∧
    threatRank (analyzeContent true .sms
        ("congratulations congratulations congratulations congratulations".toList)) <
      threatRank (analyzeContent true .sms ("congratulations".toList)) ∧
    confOf (analyzeContent true .sms
        ("congratulations congratulations congratulations congratulations".toList)) <
      confOf (analyzeContent true .sms ("congratulations".toList)) :=
  ⟨rfl,
   of_decide_eq_true (by with_unfolding_all rfl),
   of_decide_eq_true (by with_unfolding_all rfl),
   of_decide_eq_true (by with_unfolding_all rfl)⟩

/-- Base content for the C6 witness (53 characters, no safe indicator). -/
def c6Base : Str := "your bank card account payment was suspended today ok".toList

/-- Suffix appended for the C6 witness. -/
def c6Ext : Str := " click the link now".toList

theorem claim6_sms_monotonic_witness :
    (score .sms c6Base).1 ≤ (score .sms (c6Base ++ c6Ext)).1 ∧
    threatRank (analyzeContent true .sms c6Base) ≤
      threatRank (analyzeContent true .sms (c6Base ++ c6Ext)) ∧
    confOf (analyzeContent true .sms c6Base) ≤
      confOf (analyzeContent true .sms (c6Base ++ c6Ext)) :=
  claim6_sms_monotonic c6Base c6Ext
    (of_decide_eq_true (by with_unfolding_all rfl))
    (of_decide_eq_true (by with_unfolding_all rfl))

end Phish

namespace Phish

theorem lowerChar_ascii (c : Char) (h : c.toNat < 128) : (lowerChar c).toNat < 128 := by
  unfold lowerChar
  split_ifs with h1 h2
  · have h2 := h1.2
    rw [Char.le_def] at h2
    have h3 : c.toNat ≤ 90 := h2
    unfold Char.ofNat
    split
    · have h4 : ∀ (hv : (c.toNat + 32).isValidChar),
          (Char.ofNatAux (c.toNat + 32) hv).toNat = c.toNat + 32 := fun _ => rfl
      rw [h4]
      omega
    · show (0:Nat) < 128
      norm_num
  · have h3 := h2.1
    rw [Char.le_def] at h3
    have h4 : ('А'.toNat : Nat) ≤ c.toNat := h3
    have h5 : (1024:Nat) ≤ 'А'.toNat := by decide
    omega
  · exact h

theorem lower_ascii (l : Str) (h : ∀ ch ∈ l, ch.toNat < 128) :
    ∀ ch ∈ lower l, ch.toNat < 128 := by
  intro ch hch
  obtain ⟨d, hd, rfl⟩ := List.mem_map.mp hch
  exact lowerChar_ascii d (h d hd)

theorem finishURL_host (sl hr : Str) (pp : Option Str) (af : Str) (u : URLParts)
    (h : finishURL sl hr pp af = some u) : u.host = lower hr := by
  unfold finishURL at h
  split at h
  · exact absurd h (by simp)
  · simp only [Option.some.injEq] at h
    rw [← h]

theorem hostGate_ascii (sl hr : Str) (pp : Option Str) (af : Str) (u : URLParts)
    (h : hostGate sl hr pp af = some u) : ∀ ch ∈ u.host, ch.toNat < 128 := by
  unfold hostGate at h
  split_ifs at h with hv
  push_neg at hv
  rw [finishURL_host _ _ _ _ _ h]
  refine lower_ascii _ ?_
  intro ch hch
  have hall := hv.2
  rw [List.all_eq_true] at hall
  have hc := hall ch hch
  simp only [hostCharOk, Bool.and_eq_true, decide_eq_true_eq] at hc
  omega

theorem parseURL_host_ascii (s : Str) (u : URLParts) (h : parseURL s = some u) :
    ∀ ch ∈ u.host, ch.toNat < 128 := by
  simp only [parseURL] at h
  split_ifs at h
  all_goals exact hostGate_ascii _ _ _ _ _ h

end Phish

namespace Phish

theorem emp_testAt (l : Str) : RE.emp.testAt l = false := by
  induction l <;> simp_all [RE.testAt, RE.nullableAt, RE.deriv]

/-- For an ASCII character, every class of the structural homograph pattern
fails, so its derivative is the empty language. -/
theorem homographStruct_deriv_ascii (c : Char) (h : c.toNat < 128) :
    homographStructRe.deriv c = .emp := by
  have nle : ∀ lo : Char, 128 ≤ lo.toNat → ¬ (lo ≤ c) := by
    intro lo hlo hle
    rw [Char.le_def] at hle
    have h2 : lo.toNat ≤ c.toNat := hle
    omega
  simp [homographStructRe, alts, greekCls, cls, rng, RE.deriv, altS, inRanges,
    nle 'а' (by decide), nle 'α' (by decide), nle 'σ' (by decide),
    nle 'е' (by decide), nle 'о' (by decide), nle 'р' (by decide),
    nle 'с' (by decide), nle 'у' (by decide), nle 'к' (by decide),
    nle 'х' (by decide), nle 'à' (by decide)]

theorem homographStruct_search_ascii (l : Str) (h : ∀ ch ∈ l, ch.toNat < 128) :
    homographStructRe.search l = false := by
  induction l with
  | nil => rfl
  | cons c t ih =>
    have hd := homographStruct_deriv_ascii c (h c (List.mem_cons_self _ _))
    have ht := ih (fun x hx => h x (List.mem_cons_of_mem _ hx))
    have hnul : homographStructRe.nullableAt false = false := rfl
    simp [RE.search, RE.testAt, hnul, hd, emp_testAt, ht]

/-! ## Sub-list structure of the collected reasons -/

/-- The reason strings of a category's rule table, in table order. -/
def rulePool (t : CType) : List String := (fraudPatterns t).map FraudRule.reason

/-- The reason strings the structural stage of a parsed URL can emit — the
homograph reason is absent because a parsed hostname is ASCII. -/
def urlStructPool : List String :=
  ["High-risk top-level domain", "Suspicious top-level domain",
   "Excessive subdomain nesting", "Multiple subdomains detected",
   "Non-standard port number detected", "Insecure HTTP protocol for sensitive content",
   "Unusually long URL", "Suspicious file path detected"]

def emailHeurPool : List String :=
  ["Excessive use of capital letters", "Excessive punctuation usage",
   "Suspicious email domain in content", "Large monetary amounts mentioned"]

def smsHeurPool : List String :=
  ["Short message with suspicious content", "Suspicious sender number pattern"]

theorem ruleReasons_sublist (t : CType) (c : Str) :
    (ruleReasons t c).Sublist (rulePool t) :=
  List.Sublist.map _ (List.filter_sublist _)

theorem addIf_snd (b : Bool) (w : ℚ) (r : String) (acc : ℚ × List String) :
    (addIf b w r acc).2 = acc.2 ++ (if b then [r] else []) := by
  unfold addIf
  split <;> simp

theorem addIf2_snd (b1 b2 : Bool) (w1 : ℚ) (r1 : String) (w2 : ℚ) (r2 : String)
    (acc : ℚ × List String) :
    (addIf2 b1 b2 w1 r1 w2 r2 acc).2 =
      acc.2 ++ (if b1 then [r1] else if b2 then [r2] else []) := by
  unfold addIf2
  split_ifs <;> simp

theorem sublist_if1 (b : Bool) (r : String) :
    (if b then [r] else []).Sublist [r] := by
  split
  · exact List.Sublist.refl _
  · exact List.nil_sublist _

theorem sublist_if2 (b1 b2 : Bool) (r1 r2 : String) :
    (if b1 then [r1] else if b2 then [r2] else []).Sublist [r1, r2] := by
  split_ifs
  · exact List.cons_sublist_cons.mpr (List.nil_sublist _)
  · exact List.sublist_cons_of_sublist _ (List.Sublist.refl _)
  · exact List.nil_sublist _

theorem urlStructural_sublist (u : URLParts)
    (hdead : homographStructRe.search (lower u.host) = false) :
    ((urlStructural u).2).Sublist urlStructPool := by
  unfold urlStructural
  simp only [addIf_snd, addIf2_snd, hdead, Bool.false_eq_true, if_false,
    List.append_nil, List.nil_append]
  have hpool : urlStructPool =
      ((((["High-risk top-level domain", "Suspicious top-level domain"] ++
        ["Excessive subdomain nesting", "Multiple subdomains detected"]) ++
        ["Non-standard port number detected"]) ++
        ["Insecure HTTP protocol for sensitive content"]) ++
        ["Unusually long URL"]) ++ ["Suspicious file path detected"] := rfl
  rw [hpool]
  exact ((((((sublist_if2 _ _ _ _).append (sublist_if2 _ _ _ _)).append
    (sublist_if1 _ _)).append (sublist_if1 _ _)).append
    (sublist_if1 _ _)).append (sublist_if1 _ _))

theorem emailExtra_sublist (c : Str) : ((emailExtra c).2).Sublist emailHeurPool := by
  unfold emailExtra
  simp only [addIf_snd, List.nil_append]
  have hpool : emailHeurPool =
      ((["Excessive use of capital letters"] ++ ["Excessive punctuation usage"]) ++
        ["Suspicious email domain in content"]) ++ ["Large monetary amounts mentioned"] := rfl
  rw [hpool]
  exact (((sublist_if1 _ _).append (sublist_if1 _ _)).append
    (sublist_if1 _ _)).append (sublist_if1 _ _)

theorem smsExtra_sublist (c : Str) (r : List String) :
    ((smsExtra c r).2).Sublist smsHeurPool := by
  unfold smsExtra
  simp only [addIf_snd, List.nil_append]
  have hpool : smsHeurPool =
      ["Short message with suspicious content"] ++ ["Suspicious sender number pattern"] := rfl
  rw [hpool]
  exact (sublist_if1 _ _).append (sublist_if1 _ _)

theorem score_reasons_nodup (t : CType) (c : Str) : ((score t c).2).Nodup := by
  cases t
  case url =>
    rw [score_url_eq]
    show (ruleReasons .url c ++ (urlExtra c).2).Nodup
    cases hp : parseURL (normalizeUrl c) with
    | none =>
      have h2 : (urlExtra c).2 = ["Malformed URL structure"] := by
        unfold urlExtra
        rw [hp]
      rw [h2]
      exact List.Nodup.sublist
        ((ruleReasons_sublist .url c).append (List.Sublist.refl _))
        (of_decide_eq_true (by with_unfolding_all rfl) :
          (rulePool .url ++ ["Malformed URL structure"]).Nodup)
    | some u =>
      have hdead : homographStructRe.search (lower u.host) = false :=
        homographStruct_search_ascii _
          (lower_ascii _ (parseURL_host_ascii _ _ hp))
      have h2 : (urlExtra c).2 = (urlStructural u).2 := by
        unfold urlExtra
        rw [hp]
      rw [h2]
      exact List.Nodup.sublist
        ((ruleReasons_sublist .url c).append (urlStructural_sublist u hdead))
        (of_decide_eq_true (by with_unfolding_all rfl) :
          (rulePool .url ++ urlStructPool).Nodup)
  case email =>
    rw [score_email_eq]
    show (ruleReasons .email c ++ (emailExtra c).2).Nodup
    exact List.Nodup.sublist
      ((ruleReasons_sublist .email c).append (emailExtra_sublist c))
      (of_decide_eq_true (by with_unfolding_all rfl) :
        (rulePool .email ++ emailHeurPool).Nodup)
  case sms =>
    rw [score_sms_eq]
    show (ruleReasons .sms c ++ (smsExtra c (ruleReasons .sms c)).2).Nodup
    exact List.Nodup.sublist
      ((ruleReasons_sublist .sms c).append (smsExtra_sublist c _))
      (of_decide_eq_true (by with_unfolding_all rfl) :
        (rulePool .sms ++ smsHeurPool).Nodup)

/-- C9: each rule contributes its reason at most once per evaluation, and
the collected reasons of an evaluation (and hence of every non-null result)
contain no duplicate strings across the rule-registry, structural and
heuristic stages. -/
theorem claim9_reasons_nodup (t : CType) (c : Str) :
    ((score t c).2).Nodup ∧
    (analyzeContent true t c).elim True (fun a => a.reasons.Nodup) := by
  refine ⟨score_reasons_nodup t c, ?_⟩
  cases h : analyzeContent true t c with
  | none => trivial
  | some a =>
    obtain ⟨-, -, -, rfl⟩ := (analyze_some_iff _ _ _).mp h
    show ((score t c).2.take 10).Nodup
    exact List.Nodup.sublist (List.take_sublist _ _) (score_reasons_nodup t c)

end Phish
